import Mathlib

/-!
Shallow embedding of the FortunasBetCdk repository (TypeScript, AWS CDK) and
proofs about its string helpers, static-asset classification glob lists,
resource-identifier construction, CORS configuration and synthesis entry point.

Embedded source files:
  * src/lib/stacks/websiteStack.ts  (getApexDomain, sanitize, the three
    BucketDeployment passes, bucket names, distribution comment)
  * src/lib/stacks/apiStack.ts      (function name, REST API name, CORS origins)
  * src/bin/fortunas_cdk.ts         (getEnvConfig, main, stack instantiation)
-/

/-!
## Glob matcher

Modelled from the spec: glob evaluation is delegated entirely to the deployment
tool (the CDK `BucketDeployment` include/exclude filters, which use the AWS CLI
filter pattern language).  No matcher exists in this repository, so the AWS CLI
semantics is modelled here: a pattern is a sequence of literal characters, the
wildcard `*` (matching any sequence of characters, including path separators),
`?` (matching any single character), and character classes `[a-f0-9]` of ranges.
-/

/-- A parsed glob pattern token. -/
inductive GTok where
  | lit (c : Char)
  | star
  | qmark
  | cls (neg : Bool) (ranges : List (Char × Char))
deriving DecidableEq, Repr

/-- Does a character fall in one of the ranges of a character class? -/
def classHas (ranges : List (Char × Char)) (c : Char) : Bool :=
  ranges.any (fun r => decide (r.1 ≤ c) && decide (c ≤ r.2))

/-- Read the body of a character class (after the opening bracket and optional
negation marker), up to the closing bracket.  A bare character stands for the
one-element range; `a-b` stands for the range from `a` to `b`. -/
def readClassItems : List Char → Option (List (Char × Char) × List Char)
  | [] => none
  | ']' :: r => some ([], r)
  | a :: '-' :: b :: r =>
      (readClassItems r).map (fun p => ((a, b) :: p.1, p.2))
  | a :: r =>
      (readClassItems r).map (fun p => ((a, a) :: p.1, p.2))

/-- Fuelled glob-pattern tokenizer body. -/
def parseGlobAux : Nat → List Char → List GTok
  | _, [] => []
  | 0, _ :: _ => []
  | f + 1, '*' :: r => GTok.star :: parseGlobAux f r
  | f + 1, '?' :: r => GTok.qmark :: parseGlobAux f r
  | f + 1, '[' :: r =>
      match r with
      | '!' :: r1 =>
          match readClassItems r1 with
          | some (items, rest) => GTok.cls true items :: parseGlobAux f rest
          | none => GTok.lit '[' :: parseGlobAux f r
      | _ =>
          match readClassItems r with
          | some (items, rest) => GTok.cls false items :: parseGlobAux f rest
          | none => GTok.lit '[' :: parseGlobAux f r
  | f + 1, c :: r => GTok.lit c :: parseGlobAux f r

/-- Tokenize a glob pattern. -/
def parseGlob (l : List Char) : List GTok :=
  parseGlobAux l.length l

/-- All suffixes of a character list, longest first. -/
def suffixes : List Char → List (List Char)
  | [] => [[]]
  | c :: r => (c :: r) :: suffixes r

/-- Match a tokenized glob pattern against a character list.  `star` matches
any (possibly empty) sequence of characters, including path separators, as in
the AWS CLI filter language: a leading star succeeds when the rest of the
pattern matches some suffix of the string. -/
def globMatch : List GTok → List Char → Bool
  | [], s => s.isEmpty
  | GTok.star :: ts, s => (suffixes s).any (fun z => globMatch ts z)
  | GTok.lit d :: ts, s =>
      match s with
      | [] => false
      | c :: s' => (c = d) && globMatch ts s'
  | GTok.qmark :: ts, s =>
      match s with
      | [] => false
      | _ :: s' => globMatch ts s'
  | GTok.cls n rs :: ts, s =>
      match s with
      | [] => false
      | c :: s' => (n != classHas rs c) && globMatch ts s'

/-- Match a glob pattern string against a path string. -/
def gmatches (pat : String) (s : String) : Bool :=
  globMatch (parseGlob pat.data) s.data

/-- A sequence of literal tokens. -/
def lits (w : List Char) : List GTok :=
  w.map GTok.lit

/-!
## src/lib/stacks/websiteStack.ts — string helpers

`getApexDomain` is `host.split(".")` followed by a length guard and
`parts.slice(-2).join(".")`; `sanitize` is `name.replace(/\./g, "-")`.
The JavaScript `split` on the one-character separator "." is embedded directly
on character lists (`"".split(".")` is `[""]`, so the split of the empty string
is the one-element list holding the empty label).
-/

/-- JavaScript `host.split(".")` on character lists. -/
def splitOnDot : List Char → List (List Char)
  | [] => [[]]
  | c :: r =>
      if c = '.' then [] :: splitOnDot r
      else
        match splitOnDot r with
        | [] => [[c]]
        | h :: t => (c :: h) :: t

/-- JavaScript `parts.join(".")` on character lists. -/
def joinDot : List (List Char) → List Char
  | [] => []
  | x :: xs =>
      match xs with
      | [] => x
      | _ :: _ => x ++ '.' :: joinDot xs

/-- websiteStack.ts lines 328–332: the parent-domain helper, e.g.
"testing.fortunasbet.com" → "fortunasbet.com". -/
def getApexDomain (host : String) : String :=
  let parts := splitOnDot host.data
  if parts.length < 2 then host
  else ⟨joinDot (parts.drop (parts.length - 2))⟩

/-- The character substitution performed by `sanitize`. -/
def sanitizeChar (c : Char) : Char :=
  if c = '.' then '-' else c

/-- websiteStack.ts lines 335–337: `name.replace(/\./g, "-")`. -/
def sanitize (name : String) : String :=
  ⟨name.data.map sanitizeChar⟩

/-- JavaScript `.toLowerCase()`, embedded as a character-wise lowercase map. -/
def toLowerStr (s : String) : String :=
  ⟨s.data.map Char.toLower⟩

/-- Modelled from the spec: the fixed prefix constant `fortunasBet` exported by
src/lib/constants.ts, which is absent from the sources; every resource
identifier is built from this fixed prefix, the stage label and the resource
kind. -/
def fortunasBet : String := "FortunasBet"

/-!
## src/lib/stacks/websiteStack.ts — the three BucketDeployment passes
-/

/-- The include/exclude glob lists of one `BucketDeployment` pass. -/
structure DeployPass where
  includeGlobs : List String
  excludeGlobs : List String

/-- websiteStack.ts lines 229–254: the DeployHtml pass (HTML, short cache). -/
def deployHtmlPass (hashedDirs : List String) : DeployPass :=
  { includeGlobs := ["index.html", "**/*.html"]
  , excludeGlobs :=
      [ "**/*.js", "**/*.css", "**/*.map", "**/*.png", "**/*.jpg", "**/*.jpeg"
      , "**/*.svg", "**/*.gif", "**/*.webp", "**/*.ico", "**/*.woff"
      , "**/*.woff2", "**/*.ttf" ] ++ hashedDirs }

/-- websiteStack.ts lines 258–285: the DeployUnhashedApp pass (plain JS/CSS,
short cache). -/
def deployUnhashedAppPass (hashedDirs : List String) : DeployPass :=
  { includeGlobs := ["**/*.js", "**/*.css"]
  , excludeGlobs :=
      ["**/*.map"] ++ hashedDirs ++
      [ "**/*.[a-fA-F0-9]*.js", "**/*.[a-fA-F0-9]*.css"
      , "**/*-*.*.js", "**/*-*.*.css" ] }

/-- websiteStack.ts lines 288–323: the DeployHashed pass (hashed assets, long
cache); it carries no exclude list. -/
def deployHashedPass (hashedDirs : List String) : DeployPass :=
  { includeGlobs :=
      hashedDirs ++
      [ "**/*.[a-fA-F0-9]*.js", "**/*.[a-fA-F0-9]*.css"
      , "**/*-*.*.js", "**/*-*.*.css"
      , "**/*.png", "**/*.jpg", "**/*.jpeg", "**/*.svg", "**/*.gif"
      , "**/*.webp", "**/*.ico", "**/*.woff", "**/*.woff2", "**/*.ttf"
      , "**/*.map" ]
  , excludeGlobs := [] }

/-- websiteStack.ts line 47: the default of the `hashedDirs` prop. -/
def defaultHashedDirs : List String := ["assets/**"]

/-- A pass selects a path when the path matches some include glob and no
exclude glob (the include set net of the excludes). -/
def selects (p : DeployPass) (path : String) : Bool :=
  p.includeGlobs.any (fun g => gmatches g path) &&
    !(p.excludeGlobs.any (fun g => gmatches g path))

/-- How many of the three passes (at the default `hashedDirs`) select a path. -/
def selectCount (path : String) : Nat :=
  (cond (selects (deployHtmlPass defaultHashedDirs) path) 1 0) +
  (cond (selects (deployUnhashedAppPass defaultHashedDirs) path) 1 0) +
  (cond (selects (deployHashedPass defaultHashedDirs) path) 1 0)

/-!
## src/lib/stacks/websiteStack.ts and src/lib/stacks/apiStack.ts — identifiers
-/

/-- The props of `WebsiteStack` (websiteStack.ts lines 14–27). -/
structure WebsiteStackProps where
  domainName : String
  hostedZoneId : String
  stage : String
  hashedDirs : Option (List String)

/-- The identifier-bearing attributes fixed by the `WebsiteStack` constructor. -/
structure WebsiteStackModel where
  apexDomain : String
  wwwDomain : String
  siteBucketName : String
  loggingBucketName : String
  distributionComment : String
  aliasBaseId : String
  htmlPass : DeployPass
  unhashedAppPass : DeployPass
  hashedPass : DeployPass

/-- The `WebsiteStack` constructor body (websiteStack.ts lines 33–324) as a
function from props to the attributes it fixes. -/
def mkWebsiteStack (props : WebsiteStackProps) : WebsiteStackModel :=
  let hashedDirs := props.hashedDirs.getD ["assets/**"]
  { apexDomain := getApexDomain props.domainName
  , wwwDomain := "www." ++ props.domainName
  , siteBucketName :=
      toLowerStr fortunasBet ++ "-website-bucket-" ++ toLowerStr props.stage
  , loggingBucketName :=
      toLowerStr fortunasBet ++ "-accesslogsbucket-" ++ toLowerStr props.stage
  , distributionComment :=
      "CloudFront Distribution for " ++ fortunasBet ++ " " ++ props.stage
  , aliasBaseId :=
      fortunasBet ++ "-Alias-" ++ sanitize props.domainName ++ "-" ++ props.stage
  , htmlPass := deployHtmlPass hashedDirs
  , unhashedAppPass := deployUnhashedAppPass hashedDirs
  , hashedPass := deployHashedPass hashedDirs }

/-- The props of `ApiStack` (apiStack.ts lines 18–26); the construct references
(user pool, table) are resource wirings with no identifier content and are not
carried here. -/
structure ApiStackProps where
  apiDomainName : String
  stage : String
  escalationEmail : String
  escalationNumber : String

/-- The identifier-bearing attributes fixed by the `ApiStack` constructor. -/
structure ApiStackModel where
  functionName : String
  restApiName : String
  cognitoDomain : String
  corsAllowOrigins : List String

/-- The `ApiStack` constructor body (apiStack.ts lines 32–255) as a function
from props to the attributes it fixes; `corsAllowOrigins` is the
`defaultCorsPreflightOptions.allowOrigins` conditional of lines 181–191. -/
def mkApiStack (props : ApiStackProps) : ApiStackModel :=
  { functionName := fortunasBet ++ "-ApiLambda-" ++ props.stage
  , restApiName := fortunasBet ++ "-Api-" ++ props.stage
  , cognitoDomain :=
      if toLowerStr props.stage = "prod" then
        "https://fortunasbet.auth.us-west-2.amazoncognito.com"
      else
        "https://fortunasbet-" ++ toLowerStr props.stage ++
          ".auth.us-west-2.amazoncognito.com"
  , corsAllowOrigins :=
      if toLowerStr props.stage = "prod" then
        ["https://fortunasbet.com"]
      else if toLowerStr props.stage = "testing" then
        ["https://testing.fortunasbet.com", "http://localhost:8080"]
      else
        ["http://localhost:8080"] }

/-!
## src/bin/fortunas_cdk.ts — configuration loading and synthesis

The process environment is embedded as the six variables the file reads, each
an optional string; JavaScript truthiness of `process.env.X` is "present and
non-empty".  `JSON.parse` and the local file read are external inputs of the
program and enter as parameters.
-/

/-- The environment variables read by src/bin/fortunas_cdk.ts. -/
structure EnvVars where
  cicd : Option String
  codebuildBuildId : Option String
  codepipelineExecutionId : Option String
  codedeployDeploymentId : Option String
  useSecretsManager : Option String
  cdkEnvConfig : Option String

/-- JavaScript double-negation truthiness of an optional environment string. -/
def truthy : Option String → Bool
  | none => false
  | some s => !(s == "")

/-- fortunas_cdk.ts lines 14–19: the CI/CD environment detection. -/
def isCICD (env : EnvVars) : Bool :=
  truthy env.cicd || truthy env.codebuildBuildId ||
    truthy env.codepipelineExecutionId || truthy env.codedeployDeploymentId ||
    truthy env.useSecretsManager

/-- fortunas_cdk.ts lines 12–38: `getEnvConfig`, returning the raw
configuration text (the CDK_ENV_CONFIG value in CI/CD, the local file
otherwise) or the thrown error. -/
def getEnvConfig (env : EnvVars) (localEnvFile : String) : Except String String :=
  if isCICD env then
    match env.cdkEnvConfig with
    | none =>
        Except.error "CDK_ENV_CONFIG environment variable not set in CI/CD environment"
    | some s =>
        if s == "" then
          Except.error "CDK_ENV_CONFIG environment variable not set in CI/CD environment"
        else Except.ok s
  else Except.ok localEnvFile

/-- One stage's configuration record (fortunas_cdk.ts lines 49–58). -/
structure StageConfig where
  hostedZoneId : String
  websiteDomainName : String
  apiDomainName : String
  callbackUrls : List String
  wildcardCertificateArn : String
  apiWildcardCertificateArn : String
  escalationEmail : String
  escalationNumber : String
deriving DecidableEq

/-- One instantiated stack: its construct identifier and the configuration
values passed to it by `main`. -/
inductive StackInstance where
  | database (id stage : String)
  | cognito (id stage : String) (callbackUrls : List String)
      (escalationEmail escalationNumber : String)
  | website (id domainName hostedZoneId stage : String)
  | apiStack (id apiDomainName stage escalationEmail escalationNumber : String)
  | apiDns (id stage rootDomainName apiDomainName hostedZoneId
      certificateArn : String)
deriving DecidableEq

/-- The five stacks `main` instantiates for one stage key, in program order
(fortunas_cdk.ts lines 60–108). -/
def stacksForStage (stage : String) (c : StageConfig) : List StackInstance :=
  [ StackInstance.database (fortunasBet ++ "-DatabaseStack-" ++ stage) stage
  , StackInstance.cognito (fortunasBet ++ "-CognitoStack-" ++ stage) stage
      c.callbackUrls c.escalationEmail c.escalationNumber
  , StackInstance.website (fortunasBet ++ "-WebsiteStack-" ++ stage)
      c.websiteDomainName c.hostedZoneId stage
  , StackInstance.apiStack (fortunasBet ++ "-ApiStack-" ++ stage)
      c.apiDomainName stage c.escalationEmail c.escalationNumber
  , StackInstance.apiDns (fortunasBet ++ "-ApiDnsStack-" ++ stage) stage
      c.websiteDomainName c.apiDomainName c.hostedZoneId
      c.apiWildcardCertificateArn ]

/-- The loop of `main` over the stage keys of the configuration object, in key
order (fortunas_cdk.ts lines 45–109). -/
def synthStacks (cfg : List (String × StageConfig)) : List StackInstance :=
  cfg.flatMap (fun sc => stacksForStage sc.1 sc.2)

/-- fortunas_cdk.ts lines 40–110: the `main` function of the program (named
`cdkMain` here because `main` is reserved).  The configuration text is obtained
from `getEnvConfig`; `parseConfig` stands for `JSON.parse` turning the raw text
into the per-stage configuration object (its key list in insertion order). -/
def cdkMain (env : EnvVars) (localEnvFile : String)
    (parseConfig : String → List (String × StageConfig)) :
    Except String (List StackInstance) :=
  match getEnvConfig env localEnvFile with
  | Except.error e => Except.error e
  | Except.ok raw => Except.ok (synthStacks (parseConfig raw))

/-!
## Lemmas about the glob matcher
-/

/-- Suffix membership characterizes suffix splits. -/
theorem mem_suffixes : ∀ {s z : List Char}, z ∈ suffixes s ↔ ∃ y, s = y ++ z := by
  intro s
  induction s with
  | nil =>
      intro z
      simp only [suffixes, List.mem_singleton]
      constructor
      · rintro rfl; exact ⟨[], rfl⟩
      · rintro ⟨y, hy⟩
        exact (List.append_eq_nil.mp hy.symm).2
  | cons c r ih =>
      intro z
      simp only [suffixes, List.mem_cons, ih]
      constructor
      · rintro (rfl | ⟨y, rfl⟩)
        · exact ⟨[], rfl⟩
        · exact ⟨c :: y, rfl⟩
      · rintro ⟨y, hy⟩
        cases y with
        | nil => exact Or.inl hy.symm
        | cons d y' =>
            simp only [List.cons_append, List.cons.injEq] at hy
            exact Or.inr ⟨y', hy.2⟩

/-- A star-headed pattern matches exactly the strings with a matched suffix. -/
theorem globMatch_star_iff {ts : List GTok} {s : List Char} :
    globMatch (GTok.star :: ts) s = true ↔
      ∃ y z, s = y ++ z ∧ globMatch ts z = true := by
  simp only [globMatch, List.any_eq_true, mem_suffixes]
  constructor
  · rintro ⟨z, ⟨y, rfl⟩, hz⟩
    exact ⟨y, z, rfl, hz⟩
  · rintro ⟨y, z, rfl, hz⟩
    exact ⟨z, ⟨y, rfl⟩, hz⟩

/-- A single star matches every string. -/
theorem globMatch_star_all (s : List Char) : globMatch [GTok.star] s = true := by
  rw [globMatch_star_iff]
  exact ⟨s, [], by simp, rfl⟩

/-- Concatenated patterns match concatenated strings. -/
theorem globMatch_append : ∀ (p₁ : List GTok) {p₂ : List GTok} {a b : List Char},
    globMatch p₁ a = true → globMatch p₂ b = true →
    globMatch (p₁ ++ p₂) (a ++ b) = true := by
  intro p₁
  induction p₁ with
  | nil =>
      intro p₂ a b h1 h2
      have ha : a = [] := by simpa [globMatch] using h1
      subst ha
      simpa using h2
  | cons t ts ih =>
      intro p₂ a b h1 h2
      cases t with
      | star =>
          rw [globMatch_star_iff] at h1
          obtain ⟨y, z, rfl, hz⟩ := h1
          show globMatch (GTok.star :: (ts ++ p₂)) (y ++ z ++ b) = true
          rw [globMatch_star_iff]
          exact ⟨y, z ++ b, by simp, ih hz h2⟩
      | lit d =>
          cases a with
          | nil => simp [globMatch] at h1
          | cons c a' =>
              simp only [globMatch, Bool.and_eq_true, decide_eq_true_eq] at h1
              show globMatch (GTok.lit d :: (ts ++ p₂)) (c :: (a' ++ b)) = true
              simp only [globMatch, Bool.and_eq_true, decide_eq_true_eq]
              exact ⟨h1.1, ih h1.2 h2⟩
      | qmark =>
          cases a with
          | nil => simp [globMatch] at h1
          | cons c a' =>
              simp only [globMatch] at h1
              show globMatch (GTok.qmark :: (ts ++ p₂)) (c :: (a' ++ b)) = true
              simp only [globMatch]
              exact ih h1 h2
      | cls n rs =>
          cases a with
          | nil => simp [globMatch] at h1
          | cons c a' =>
              simp only [globMatch, Bool.and_eq_true] at h1
              show globMatch (GTok.cls n rs :: (ts ++ p₂)) (c :: (a' ++ b)) = true
              simp only [globMatch, Bool.and_eq_true]
              exact ⟨h1.1, ih h1.2 h2⟩

/-- A match of concatenated patterns splits the string. -/
theorem globMatch_split : ∀ (p₁ : List GTok) {p₂ : List GTok} {s : List Char},
    globMatch (p₁ ++ p₂) s = true →
    ∃ a b, s = a ++ b ∧ globMatch p₁ a = true ∧ globMatch p₂ b = true := by
  intro p₁
  induction p₁ with
  | nil => intro p₂ s h; exact ⟨[], s, rfl, rfl, h⟩
  | cons t ts ih =>
      intro p₂ s h
      cases t with
      | star =>
          rw [show (GTok.star :: ts) ++ p₂ = GTok.star :: (ts ++ p₂) from rfl,
            globMatch_star_iff] at h
          obtain ⟨y, z, rfl, hz⟩ := h
          obtain ⟨a, b, rfl, ha, hb⟩ := ih hz
          refine ⟨y ++ a, b, by simp, ?_, hb⟩
          rw [globMatch_star_iff]
          exact ⟨y, a, rfl, ha⟩
      | lit d =>
          cases s with
          | nil => simp [globMatch] at h
          | cons c s' =>
              rw [show (GTok.lit d :: ts) ++ p₂ = GTok.lit d :: (ts ++ p₂) from rfl] at h
              simp only [globMatch, Bool.and_eq_true, decide_eq_true_eq] at h
              obtain ⟨a, b, rfl, ha, hb⟩ := ih h.2
              refine ⟨c :: a, b, by simp, ?_, hb⟩
              simp only [globMatch, Bool.and_eq_true, decide_eq_true_eq]
              exact ⟨h.1, ha⟩
      | qmark =>
          cases s with
          | nil => simp [globMatch] at h
          | cons c s' =>
              rw [show (GTok.qmark :: ts) ++ p₂ = GTok.qmark :: (ts ++ p₂) from rfl] at h
              simp only [globMatch] at h
              obtain ⟨a, b, rfl, ha, hb⟩ := ih h
              exact ⟨c :: a, b, by simp, by simp [globMatch, ha], hb⟩
      | cls n rs =>
          cases s with
          | nil => simp [globMatch] at h
          | cons c s' =>
              rw [show (GTok.cls n rs :: ts) ++ p₂ = GTok.cls n rs :: (ts ++ p₂) from rfl] at h
              simp only [globMatch, Bool.and_eq_true] at h
              obtain ⟨a, b, rfl, ha, hb⟩ := ih h.2
              refine ⟨c :: a, b, by simp, ?_, hb⟩
              simp only [globMatch, Bool.and_eq_true]
              exact ⟨h.1, ha⟩

/-- Literal token sequences match exactly their own text. -/
theorem globMatch_lits : ∀ (w s : List Char), globMatch (lits w) s = true ↔ s = w := by
  intro w
  induction w with
  | nil => intro s; cases s <;> simp [lits, globMatch]
  | cons c w' ih =>
      intro s
      cases s with
      | nil => simp [lits, globMatch]
      | cons x s' =>
          have hw := ih s'
          simp only [lits] at hw
          simp [lits, globMatch, hw]

/-- A pattern with a literal tail only matches strings carrying that suffix. -/
theorem globMatch_ends {ts : List GTok} {w s : List Char}
    (h : globMatch (ts ++ lits w) s = true) : ∃ a, s = a ++ w := by
  obtain ⟨a, b, rfl, _, hb⟩ := globMatch_split ts h
  exact ⟨a, by rw [(globMatch_lits w b).mp hb]⟩

/-- Replacing a middle pattern block by a star only loosens the pattern. -/
theorem globMatch_weaken_mid {p q r : List GTok} {s : List Char}
    (h : globMatch ((p ++ q) ++ r) s = true) :
    globMatch ((p ++ [GTok.star]) ++ r) s = true := by
  obtain ⟨xy, z, rfl, hxy, hz⟩ := globMatch_split (p ++ q) h
  obtain ⟨x, y, rfl, hx, hy⟩ := globMatch_split p hxy
  have h1 := globMatch_append p hx (globMatch_star_all y)
  have h2 := globMatch_append (p ++ [GTok.star]) h1 hz
  simpa [List.append_assoc] using h2

/-- Any path matched by a glob pattern whose parse ends in a literal suffix has
that suffix's last character as its own last character. -/
theorem gmatches_lastChar {pat : String} {ts : List GTok} {w : List Char}
    {x : Char} {s : String} (hp : parseGlob pat.data = ts ++ lits w)
    (hw : w.getLast? = some x) (h : gmatches pat s = true) :
    s.data.getLast? = some x := by
  rw [gmatches, hp] at h
  obtain ⟨a, ha⟩ := globMatch_ends h
  rw [ha, List.getLast?_append_of_ne_nil _ (by rintro rfl; simp at hw)]
  exact hw

/-- Matching the hex-hashed JS pattern implies matching the plain JS pattern. -/
theorem gmatches_hexJs {s : String}
    (h : gmatches "**/*.[a-fA-F0-9]*.js" s = true) : gmatches "**/*.js" s = true := by
  rw [gmatches] at h ⊢
  rw [show parseGlob ("**/*.[a-fA-F0-9]*.js").data =
      ([GTok.star, GTok.star, GTok.lit '/'] ++
        [ GTok.star, GTok.lit '.'
        , GTok.cls false [('a', 'f'), ('A', 'F'), ('0', '9')], GTok.star]) ++
        lits (".js").data from by decide] at h
  rw [show parseGlob ("**/*.js").data =
      ([GTok.star, GTok.star, GTok.lit '/'] ++ [GTok.star]) ++ lits (".js").data
      from by decide]
  exact globMatch_weaken_mid h

/-- Matching the hex-hashed CSS pattern implies matching the plain CSS pattern. -/
theorem gmatches_hexCss {s : String}
    (h : gmatches "**/*.[a-fA-F0-9]*.css" s = true) : gmatches "**/*.css" s = true := by
  rw [gmatches] at h ⊢
  rw [show parseGlob ("**/*.[a-fA-F0-9]*.css").data =
      ([GTok.star, GTok.star, GTok.lit '/'] ++
        [ GTok.star, GTok.lit '.'
        , GTok.cls false [('a', 'f'), ('A', 'F'), ('0', '9')], GTok.star]) ++
        lits (".css").data from by decide] at h
  rw [show parseGlob ("**/*.css").data =
      ([GTok.star, GTok.star, GTok.lit '/'] ++ [GTok.star]) ++ lits (".css").data
      from by decide]
  exact globMatch_weaken_mid h

/-- Matching the dash-hashed JS pattern implies matching the plain JS pattern. -/
theorem gmatches_dashJs {s : String}
    (h : gmatches "**/*-*.*.js" s = true) : gmatches "**/*.js" s = true := by
  rw [gmatches] at h ⊢
  rw [show parseGlob ("**/*-*.*.js").data =
      ([GTok.star, GTok.star, GTok.lit '/'] ++
        [GTok.star, GTok.lit '-', GTok.star, GTok.lit '.', GTok.star]) ++
        lits (".js").data from by decide] at h
  rw [show parseGlob ("**/*.js").data =
      ([GTok.star, GTok.star, GTok.lit '/'] ++ [GTok.star]) ++ lits (".js").data
      from by decide]
  exact globMatch_weaken_mid h

/-- Matching the dash-hashed CSS pattern implies matching the plain CSS pattern. -/
theorem gmatches_dashCss {s : String}
    (h : gmatches "**/*-*.*.css" s = true) : gmatches "**/*.css" s = true := by
  rw [gmatches] at h ⊢
  rw [show parseGlob ("**/*-*.*.css").data =
      ([GTok.star, GTok.star, GTok.lit '/'] ++
        [GTok.star, GTok.lit '-', GTok.star, GTok.lit '.', GTok.star]) ++
        lits (".css").data from by decide] at h
  rw [show parseGlob ("**/*.css").data =
      ([GTok.star, GTok.star, GTok.lit '/'] ++ [GTok.star]) ++ lits (".css").data
      from by decide]
  exact globMatch_weaken_mid h

/-- The selection predicate in propositional form. -/
theorem selects_iff {p : DeployPass} {s : String} :
    selects p s = true ↔
      (∃ g ∈ p.includeGlobs, gmatches g s = true) ∧
        ∀ e ∈ p.excludeGlobs, gmatches e s = false := by
  simp [selects, List.any_eq_true, List.any_eq_false, Bool.not_eq_true']

/-- No path is selected by both the HTML pass and the unhashed-app pass. -/
theorem html_unhashed_disjoint {s : String}
    (h1 : selects (deployHtmlPass defaultHashedDirs) s = true)
    (h2 : selects (deployUnhashedAppPass defaultHashedDirs) s = true) : False := by
  rw [selects_iff] at h1 h2
  obtain ⟨⟨g, hg, hm⟩, _⟩ := h2
  simp only [deployUnhashedAppPass, defaultHashedDirs, List.mem_cons,
    List.not_mem_nil, or_false] at hg
  rcases hg with rfl | rfl
  · have hx := h1.2 "**/*.js" (by decide)
    simp [hx] at hm
  · have hx := h1.2 "**/*.css" (by decide)
    simp [hx] at hm

/-- No path is selected by both the HTML pass and the hashed-asset pass. -/
theorem html_hashed_disjoint {s : String}
    (h1 : selects (deployHtmlPass defaultHashedDirs) s = true)
    (h3 : selects (deployHashedPass defaultHashedDirs) s = true) : False := by
  rw [selects_iff] at h1 h3
  obtain ⟨⟨g, hg, hm⟩, _⟩ := h3
  simp only [deployHashedPass, defaultHashedDirs, List.cons_append,
    List.nil_append, List.mem_cons, List.not_mem_nil, or_false] at hg
  rcases hg with rfl | rfl | rfl | rfl | rfl | rfl | rfl | rfl | rfl | rfl | rfl
    | rfl | rfl | rfl | rfl | rfl
  · have hx := h1.2 "assets/**" (by decide)
    simp [hx] at hm
  · exact absurd (gmatches_hexJs hm) (by simp [h1.2 "**/*.js" (by decide)])
  · exact absurd (gmatches_hexCss hm) (by simp [h1.2 "**/*.css" (by decide)])
  · exact absurd (gmatches_dashJs hm) (by simp [h1.2 "**/*.js" (by decide)])
  · exact absurd (gmatches_dashCss hm) (by simp [h1.2 "**/*.css" (by decide)])
  · have hx := h1.2 "**/*.png" (by decide)
    simp [hx] at hm
  · have hx := h1.2 "**/*.jpg" (by decide)
    simp [hx] at hm
  · have hx := h1.2 "**/*.jpeg" (by decide)
    simp [hx] at hm
  · have hx := h1.2 "**/*.svg" (by decide)
    simp [hx] at hm
  · have hx := h1.2 "**/*.gif" (by decide)
    simp [hx] at hm
  · have hx := h1.2 "**/*.webp" (by decide)
    simp [hx] at hm
  · have hx := h1.2 "**/*.ico" (by decide)
    simp [hx] at hm
  · have hx := h1.2 "**/*.woff" (by decide)
    simp [hx] at hm
  · have hx := h1.2 "**/*.woff2" (by decide)
    simp [hx] at hm
  · have hx := h1.2 "**/*.ttf" (by decide)
    simp [hx] at hm
  · have hx := h1.2 "**/*.map" (by decide)
    simp [hx] at hm

/-- No path is selected by both the unhashed-app pass and the hashed-asset
pass. -/
theorem unhashed_hashed_disjoint {s : String}
    (h2 : selects (deployUnhashedAppPass defaultHashedDirs) s = true)
    (h3 : selects (deployHashedPass defaultHashedDirs) s = true) : False := by
  rw [selects_iff] at h2 h3
  obtain ⟨⟨g2, hg2, hm2⟩, hex2⟩ := h2
  obtain ⟨⟨g, hg, hm⟩, _⟩ := h3
  have hs : s.data.getLast? = some 's' := by
    simp only [deployUnhashedAppPass, defaultHashedDirs, List.mem_cons,
      List.not_mem_nil, or_false] at hg2
    rcases hg2 with rfl | rfl
    · have hp : parseGlob ("**/*.js").data =
          [GTok.star, GTok.star, GTok.lit '/', GTok.star] ++ lits (".js").data := by
        decide
      exact gmatches_lastChar hp (by decide) hm2
    · have hp : parseGlob ("**/*.css").data =
          [GTok.star, GTok.star, GTok.lit '/', GTok.star] ++ lits (".css").data := by
        decide
      exact gmatches_lastChar hp (by decide) hm2
  simp only [deployHashedPass, defaultHashedDirs, List.cons_append,
    List.nil_append, List.mem_cons, List.not_mem_nil, or_false] at hg
  rcases hg with rfl | rfl | rfl | rfl | rfl | rfl | rfl | rfl | rfl | rfl | rfl
    | rfl | rfl | rfl | rfl | rfl
  · have hx := hex2 "assets/**" (by decide)
    simp [hx] at hm
  · have hx := hex2 "**/*.[a-fA-F0-9]*.js" (by decide)
    simp [hx] at hm
  · have hx := hex2 "**/*.[a-fA-F0-9]*.css" (by decide)
    simp [hx] at hm
  · have hx := hex2 "**/*-*.*.js" (by decide)
    simp [hx] at hm
  · have hx := hex2 "**/*-*.*.css" (by decide)
    simp [hx] at hm
  · have hp : parseGlob ("**/*.png").data =
        [GTok.star, GTok.star, GTok.lit '/', GTok.star] ++ lits (".png").data := by
      decide
    have hw : (".png").data.getLast? = some 'g' := by decide
    exact absurd (hs.symm.trans (gmatches_lastChar hp hw hm)) (by decide)
  · have hp : parseGlob ("**/*.jpg").data =
        [GTok.star, GTok.star, GTok.lit '/', GTok.star] ++ lits (".jpg").data := by
      decide
    have hw : (".jpg").data.getLast? = some 'g' := by decide
    exact absurd (hs.symm.trans (gmatches_lastChar hp hw hm)) (by decide)
  · have hp : parseGlob ("**/*.jpeg").data =
        [GTok.star, GTok.star, GTok.lit '/', GTok.star] ++ lits (".jpeg").data := by
      decide
    have hw : (".jpeg").data.getLast? = some 'g' := by decide
    exact absurd (hs.symm.trans (gmatches_lastChar hp hw hm)) (by decide)
  · have hp : parseGlob ("**/*.svg").data =
        [GTok.star, GTok.star, GTok.lit '/', GTok.star] ++ lits (".svg").data := by
      decide
    have hw : (".svg").data.getLast? = some 'g' := by decide
    exact absurd (hs.symm.trans (gmatches_lastChar hp hw hm)) (by decide)
  · have hp : parseGlob ("**/*.gif").data =
        [GTok.star, GTok.star, GTok.lit '/', GTok.star] ++ lits (".gif").data := by
      decide
    have hw : (".gif").data.getLast? = some 'f' := by decide
    exact absurd (hs.symm.trans (gmatches_lastChar hp hw hm)) (by decide)
  · have hp : parseGlob ("**/*.webp").data =
        [GTok.star, GTok.star, GTok.lit '/', GTok.star] ++ lits (".webp").data := by
      decide
    have hw : (".webp").data.getLast? = some 'p' := by decide
    exact absurd (hs.symm.trans (gmatches_lastChar hp hw hm)) (by decide)
  · have hp : parseGlob ("**/*.ico").data =
        [GTok.star, GTok.star, GTok.lit '/', GTok.star] ++ lits (".ico").data := by
      decide
    have hw : (".ico").data.getLast? = some 'o' := by decide
    exact absurd (hs.symm.trans (gmatches_lastChar hp hw hm)) (by decide)
  · have hp : parseGlob ("**/*.woff").data =
        [GTok.star, GTok.star, GTok.lit '/', GTok.star] ++ lits (".woff").data := by
      decide
    have hw : (".woff").data.getLast? = some 'f' := by decide
    exact absurd (hs.symm.trans (gmatches_lastChar hp hw hm)) (by decide)
  · have hp : parseGlob ("**/*.woff2").data =
        [GTok.star, GTok.star, GTok.lit '/', GTok.star] ++ lits (".woff2").data := by
      decide
    have hw : (".woff2").data.getLast? = some '2' := by decide
    exact absurd (hs.symm.trans (gmatches_lastChar hp hw hm)) (by decide)
  · have hp : parseGlob ("**/*.ttf").data =
        [GTok.star, GTok.star, GTok.lit '/', GTok.star] ++ lits (".ttf").data := by
      decide
    have hw : (".ttf").data.getLast? = some 'f' := by decide
    exact absurd (hs.symm.trans (gmatches_lastChar hp hw hm)) (by decide)
  · have hx := hex2 "**/*.map" (by decide)
    simp [hx] at hm

/-!
## Claim C1
-/

/-- C1 (counterexample): the three-pass classification is not a partition of
all build-output paths.  The path "robots.txt" — a file routinely present in a
Vite/Webpack build output, copied verbatim from the public directory — is
selected by none of the three passes, not by exactly one. -/
theorem c1_robots_txt_unselected :
    selectCount "robots.txt" = 0 ∧ selectCount "robots.txt" ≠ 1 := by decide

/-- C1 (amended): the three include-net-of-exclude sets are pairwise disjoint —
no file path is selected by more than one of the DeployHtml, DeployUnhashedApp
and DeployHashed passes (with hashedDirs at its default) — but the
classification is not total, so "exactly one" fails. -/
theorem c1_classification_pairwise_disjoint (path : String) :
    selectCount path ≤ 1 := by
  unfold selectCount
  cases h1 : selects (deployHtmlPass defaultHashedDirs) path
  · cases h2 : selects (deployUnhashedAppPass defaultHashedDirs) path
    · cases h3 : selects (deployHashedPass defaultHashedDirs) path <;> simp
    · cases h3 : selects (deployHashedPass defaultHashedDirs) path
      · simp
      · exact (unhashed_hashed_disjoint h2 h3).elim
  · cases h2 : selects (deployUnhashedAppPass defaultHashedDirs) path
    · cases h3 : selects (deployHashedPass defaultHashedDirs) path
      · simp
      · exact (html_hashed_disjoint h1 h3).elim
    · exact (html_unhashed_disjoint h1 h2).elim

/-!
## Lemmas about splitOnDot and joinDot
-/

/-- The JavaScript split never returns an empty array. -/
theorem splitOnDot_ne_nil (l : List Char) : splitOnDot l ≠ [] := by
  cases l with
  | nil => simp [splitOnDot]
  | cons c r =>
      by_cases hc : c = '.'
      · simp [splitOnDot, hc]
      · cases hr : splitOnDot r <;> simp [splitOnDot, hc, hr]

/-- No label produced by the split contains the separator. -/
theorem dot_not_mem_splitOnDot :
    ∀ (l : List Char) (p : List Char), p ∈ splitOnDot l → '.' ∉ p := by
  intro l
  induction l with
  | nil =>
      intro p hp
      simp [splitOnDot] at hp
      simp [hp]
  | cons c r ih =>
      intro p hp
      by_cases hc : c = '.'
      · simp only [splitOnDot, if_pos hc, List.mem_cons] at hp
        rcases hp with rfl | hp
        · simp
        · exact ih p hp
      · cases hr : splitOnDot r with
        | nil => exact absurd hr (splitOnDot_ne_nil r)
        | cons hd tl =>
            simp only [splitOnDot, if_neg hc, hr, List.mem_cons] at hp
            rcases hp with rfl | hp
            · intro hmem
              rcases List.mem_cons.mp hmem with rfl | hmem'
              · exact hc rfl
              · exact ih hd (by rw [hr]; exact List.mem_cons_self hd tl) hmem'
            · exact ih p (by rw [hr]; exact List.mem_cons_of_mem hd hp)

/-- Splitting a separator-free string yields the one-element array. -/
theorem splitOnDot_dotfree {b : List Char} (hb : '.' ∉ b) : splitOnDot b = [b] := by
  induction b with
  | nil => rfl
  | cons c r ih =>
      have hc : c ≠ '.' := by rintro rfl; exact hb (List.mem_cons_self _ _)
      have hr : '.' ∉ r := fun h => hb (List.mem_cons_of_mem _ h)
      simp [splitOnDot, hc, ih hr]

/-- Splitting peels off a separator-free head label. -/
theorem splitOnDot_append_dot {a : List Char} (ha : '.' ∉ a) (r : List Char) :
    splitOnDot (a ++ '.' :: r) = a :: splitOnDot r := by
  induction a with
  | nil => simp [splitOnDot]
  | cons c a' ih =>
      have hc : c ≠ '.' := by rintro rfl; exact ha (List.mem_cons_self _ _)
      have ha' : '.' ∉ a' := fun h => ha (List.mem_cons_of_mem _ h)
      simp [splitOnDot, hc, ih ha']

/-- A list of length at least two ends in two elements. -/
theorem exists_last_two {α : Type} (l : List α) (hl : 2 ≤ l.length) :
    ∃ init a b, l = init ++ [a, b] := by
  have hd : (l.drop (l.length - 2)).length = 2 := by
    simp [List.length_drop]
    omega
  cases hdrop : l.drop (l.length - 2) with
  | nil => rw [hdrop] at hd; simp at hd
  | cons a t =>
      cases t with
      | nil => rw [hdrop] at hd; simp at hd
      | cons b t' =>
          cases t' with
          | cons x t'' => rw [hdrop] at hd; simp at hd
          | nil =>
              refine ⟨l.take (l.length - 2), a, b, ?_⟩
              rw [← hdrop]
              exact (List.take_append_drop _ l).symm

/-- When the split has at least two labels, `getApexDomain` returns the last
two labels joined by a dot. -/
theorem getApexDomain_eq_lastTwo {h : String} {init : List (List Char)}
    {a b : List Char} (hsplit : splitOnDot h.data = init ++ [a, b]) :
    getApexDomain h = String.mk (a ++ '.' :: b) := by
  have hlen : (splitOnDot h.data).length = init.length + 2 := by simp [hsplit]
  have hnot : ¬ (splitOnDot h.data).length < 2 := by omega
  simp only [getApexDomain, if_neg hnot]
  rw [hsplit]
  have hdrop : (init ++ [a, b]).drop ((init ++ [a, b]).length - 2) = [a, b] := by
    rw [show (init ++ [a, b]).length - 2 = init.length by simp]
    exact List.drop_left init [a, b]
  rw [hdrop]
  rfl

/-!
## Claims C2 and C9
-/

/-- C2: for every host whose split has at least two dot-separated labels,
`getApexDomain` returns the last two labels joined by a dot; any input with
fewer than two labels is returned unchanged; in particular the two
"fortunasbet.com" examples hold and single-label inputs are unchanged. -/
theorem c2_getApexDomain_spec :
    (∀ (h : String) (init : List (List Char)) (a b : List Char),
        splitOnDot h.data = init ++ [a, b] →
        getApexDomain h = String.mk (a ++ '.' :: b)) ∧
      (∀ h : String, (splitOnDot h.data).length < 2 → getApexDomain h = h) ∧
      getApexDomain "testing.fortunasbet.com" = "fortunasbet.com" ∧
      getApexDomain "fortunasbet.com" = "fortunasbet.com" ∧
      getApexDomain "localhost" = "localhost" := by
  refine ⟨fun h init a b hs => getApexDomain_eq_lastTwo hs,
    fun h hl => by simp [getApexDomain, hl], by decide, by decide, by decide⟩

/-- C2 witness: the two branches of the specification at concrete inputs. -/
theorem c2_getApexDomain_witness :
    getApexDomain "a.b.c" = "b.c" ∧ getApexDomain "host" = "host" := by
  constructor
  · have hx := c2_getApexDomain_spec.1 "a.b.c" [['a']] ['b'] ['c'] (by decide)
    exact hx.trans (by decide)
  · exact c2_getApexDomain_spec.2.1 "host" (by decide)

/-- C9: `getApexDomain` is idempotent — its result always has at most two
dot-separated labels, so a second application returns it unchanged. -/
theorem c9_getApexDomain_idempotent (h : String) :
    getApexDomain (getApexDomain h) = getApexDomain h := by
  by_cases hlen : (splitOnDot h.data).length < 2
  · have e1 : getApexDomain h = h := by simp [getApexDomain, hlen]
    rw [e1]
    exact e1
  · push_neg at hlen
    obtain ⟨init, a, b, hsplit⟩ := exists_last_two _ hlen
    have e1 := getApexDomain_eq_lastTwo hsplit
    have ha : '.' ∉ a :=
      dot_not_mem_splitOnDot h.data a (by rw [hsplit]; simp)
    have hb : '.' ∉ b :=
      dot_not_mem_splitOnDot h.data b (by rw [hsplit]; simp)
    have hsplit2 : splitOnDot (String.mk (a ++ '.' :: b)).data = [] ++ [a, b] := by
      show splitOnDot (a ++ '.' :: b) = [] ++ [a, b]
      rw [splitOnDot_append_dot ha, splitOnDot_dotfree hb]
      rfl
    have e2 := getApexDomain_eq_lastTwo hsplit2
    rw [e1, e2]

/-!
## Claims C3, C4 and C8
-/

/-- C3: `sanitize` replaces every dot by a dash — it is a total function on
strings, maps "testing.fortunasbet.com" to "testing-fortunasbet-com", and on
every string equals the character-wise substitution of '-' for '.'. -/
theorem c3_sanitize_spec :
    sanitize "testing.fortunasbet.com" = "testing-fortunasbet-com" ∧
      ∀ s : String, (sanitize s).data =
        s.data.map (fun c => if c = '.' then '-' else c) :=
  ⟨by decide, fun _ => rfl⟩

/-- C4: `sanitize` is the identity on strings containing no dot. -/
theorem c4_sanitize_id_on_dotfree (s : String) (h : '.' ∉ s.data) :
    sanitize s = s := by
  obtain ⟨l⟩ := s
  show String.mk (l.map sanitizeChar) = String.mk l
  congr 1
  have hid : ∀ a ∈ l, sanitizeChar a = a := by
    intro a ha
    have hne : a ≠ '.' := by rintro rfl; exact h ha
    simp [sanitizeChar, hne]
  calc l.map sanitizeChar = l.map id := List.map_congr_left hid
    _ = l := List.map_id l

/-- C4 witness: the identity at a concrete dot-free string. -/
theorem c4_sanitize_witness : sanitize "abc" = "abc" :=
  c4_sanitize_id_on_dotfree "abc" (by decide)

/-- C8: `sanitize` is idempotent on every string, since its output never
contains a dot. -/
theorem c8_sanitize_idempotent (s : String) :
    sanitize (sanitize s) = sanitize s := by
  obtain ⟨l⟩ := s
  show String.mk ((l.map sanitizeChar).map sanitizeChar) =
    String.mk (l.map sanitizeChar)
  congr 1
  rw [List.map_map]
  apply List.map_congr_left
  intro a _
  by_cases ha : a = '.' <;> simp [Function.comp, sanitizeChar, ha]

/-!
## Claims C5, C6, C7 and C10
-/

/-- C5: in an automated (CI/CD) environment with the CDK_ENV_CONFIG variable
absent, `getEnvConfig` raises the descriptive error and `main` aborts with it
before any stack is instantiated — the run produces no stack list. -/
theorem c5_missing_config_aborts (env : EnvVars) (lf : String)
    (parse : String → List (String × StageConfig))
    (hc : isCICD env = true) (hn : env.cdkEnvConfig = none) :
    getEnvConfig env lf =
        Except.error
          "CDK_ENV_CONFIG environment variable not set in CI/CD environment" ∧
      cdkMain env lf parse =
        Except.error
          "CDK_ENV_CONFIG environment variable not set in CI/CD environment" := by
  have e : getEnvConfig env lf =
      Except.error
        "CDK_ENV_CONFIG environment variable not set in CI/CD environment" := by
    simp [getEnvConfig, hc, hn]
  exact ⟨e, by simp [cdkMain, e]⟩

/-- C5 witness: a concrete CI/CD environment (CICD marker set, CDK_ENV_CONFIG
absent) on which synthesis aborts with the descriptive error. -/
theorem c5_missing_config_witness :
    getEnvConfig ⟨some "1", none, none, none, none, none⟩ "localfile" =
        Except.error
          "CDK_ENV_CONFIG environment variable not set in CI/CD environment" ∧
      cdkMain ⟨some "1", none, none, none, none, none⟩ "localfile" (fun _ => []) =
        Except.error
          "CDK_ENV_CONFIG environment variable not set in CI/CD environment" :=
  c5_missing_config_aborts _ _ _ (by decide) rfl

/-- C6: resource identifiers are deterministic functions of only the fixed
prefix constant, the stage label and the resource kind: the website bucket
name, the API Lambda function name and the distribution comment have the
stated shapes, and coincide for any two prop records sharing a stage. -/
theorem c6_resource_identifiers :
    (∀ p : WebsiteStackProps,
        (mkWebsiteStack p).siteBucketName =
          toLowerStr fortunasBet ++ "-website-bucket-" ++ toLowerStr p.stage) ∧
      (∀ p : ApiStackProps,
        (mkApiStack p).functionName = fortunasBet ++ "-ApiLambda-" ++ p.stage) ∧
      (∀ p : WebsiteStackProps,
        (mkWebsiteStack p).distributionComment =
          "CloudFront Distribution for " ++ fortunasBet ++ " " ++ p.stage) ∧
      (∀ p q : WebsiteStackProps, p.stage = q.stage →
        (mkWebsiteStack p).siteBucketName = (mkWebsiteStack q).siteBucketName ∧
          (mkWebsiteStack p).distributionComment =
            (mkWebsiteStack q).distributionComment) ∧
      (∀ p q : ApiStackProps, p.stage = q.stage →
        (mkApiStack p).functionName = (mkApiStack q).functionName) := by
  refine ⟨fun p => rfl, fun p => rfl, fun p => rfl, ?_, ?_⟩
  · intro p q hpq
    exact ⟨by simp [mkWebsiteStack, hpq], by simp [mkWebsiteStack, hpq]⟩
  · intro p q hpq
    simp [mkApiStack, hpq]

/-- C6 witness: two prop records differing in every field except the stage
yield the same bucket name, distribution comment and function name. -/
theorem c6_resource_identifiers_witness :
    (mkWebsiteStack ⟨"a.com", "Z1", "Prod", none⟩).siteBucketName =
        (mkWebsiteStack ⟨"b.org", "Z2", "Prod", some ["x/**"]⟩).siteBucketName ∧
      (mkWebsiteStack ⟨"a.com", "Z1", "Prod", none⟩).distributionComment =
        (mkWebsiteStack ⟨"b.org", "Z2", "Prod", some ["x/**"]⟩).distributionComment ∧
      (mkApiStack ⟨"api.a.com", "Prod", "e1", "n1"⟩).functionName =
        (mkApiStack ⟨"api.b.org", "Prod", "e2", "n2"⟩).functionName :=
  ⟨(c6_resource_identifiers.2.2.2.1 _ _ rfl).1,
    (c6_resource_identifiers.2.2.2.1 _ _ rfl).2,
    c6_resource_identifiers.2.2.2.2 _ _ rfl⟩

/-- C7: synthesis is deterministic in the configuration input — two runs of
`main` over the same inputs are equal, the produced stack list is determined
by the parsed configuration, and each stage key contributes exactly its five
stacks (DatabaseStack, CognitoStack, WebsiteStack, ApiStack, ApiDnsStack) in
program order with identifiers and property values drawn only from the
configuration. -/
theorem c7_synthesis_deterministic :
    (∀ (env : EnvVars) (lf : String)
        (parse : String → List (String × StageConfig)),
        cdkMain env lf parse = cdkMain env lf parse) ∧
      (∀ (env : EnvVars) (lf : String)
        (parse : String → List (String × StageConfig)),
        cdkMain env lf parse =
          Except.map (fun raw => synthStacks (parse raw)) (getEnvConfig env lf)) ∧
      (∀ (stage : String) (c : StageConfig),
        stacksForStage stage c =
          [ StackInstance.database (fortunasBet ++ "-DatabaseStack-" ++ stage) stage
          , StackInstance.cognito (fortunasBet ++ "-CognitoStack-" ++ stage) stage
              c.callbackUrls c.escalationEmail c.escalationNumber
          , StackInstance.website (fortunasBet ++ "-WebsiteStack-" ++ stage)
              c.websiteDomainName c.hostedZoneId stage
          , StackInstance.apiStack (fortunasBet ++ "-ApiStack-" ++ stage)
              c.apiDomainName stage c.escalationEmail c.escalationNumber
          , StackInstance.apiDns (fortunasBet ++ "-ApiDnsStack-" ++ stage) stage
              c.websiteDomainName c.apiDomainName c.hostedZoneId
              c.apiWildcardCertificateArn ]) ∧
      (∀ cfg : List (String × StageConfig),
        (synthStacks cfg).length = 5 * cfg.length) := by
  refine ⟨fun _ _ _ => rfl, ?_, fun _ _ => rfl, ?_⟩
  · intro env lf parse
    cases h : getEnvConfig env lf <;> simp [cdkMain, h, Except.map]
  · intro cfg
    induction cfg with
    | nil => rfl
    | cons hd tl ih =>
        simp [synthStacks, stacksForStage] at ih ⊢
        omega

/-- C10: the CORS allowed-origin list is determined solely by the lowercased
stage label — the production origin for "prod", the testing origin plus
localhost for "testing", localhost alone otherwise — and no non-prod stage
lists the production origin. -/
theorem c10_cors_origins :
    (∀ p : ApiStackProps, toLowerStr p.stage = "prod" →
        (mkApiStack p).corsAllowOrigins = ["https://fortunasbet.com"]) ∧
      (∀ p : ApiStackProps, toLowerStr p.stage = "testing" →
        (mkApiStack p).corsAllowOrigins =
          ["https://testing.fortunasbet.com", "http://localhost:8080"]) ∧
      (∀ p : ApiStackProps, toLowerStr p.stage ≠ "prod" →
        toLowerStr p.stage ≠ "testing" →
        (mkApiStack p).corsAllowOrigins = ["http://localhost:8080"]) ∧
      (∀ p : ApiStackProps, toLowerStr p.stage ≠ "prod" →
        "https://fortunasbet.com" ∉ (mkApiStack p).corsAllowOrigins) := by
  refine ⟨?_, ?_, ?_, ?_⟩
  · intro p h
    simp [mkApiStack, h]
  · intro p h
    have hne : toLowerStr p.stage ≠ "prod" := by rw [h]; decide
    simp [mkApiStack, h, hne]
  · intro p h1 h2
    simp [mkApiStack, h1, h2]
  · intro p h1
    by_cases h2 : toLowerStr p.stage = "testing" <;> simp [mkApiStack, h1, h2]

/-- C10 witness: the three branches and the non-prod exclusion at concrete
stage labels. -/
theorem c10_cors_origins_witness :
    (mkApiStack ⟨"api.x", "Prod", "e", "n"⟩).corsAllowOrigins =
        ["https://fortunasbet.com"] ∧
      (mkApiStack ⟨"api.x", "Testing", "e", "n"⟩).corsAllowOrigins =
        ["https://testing.fortunasbet.com", "http://localhost:8080"] ∧
      (mkApiStack ⟨"api.x", "Dev", "e", "n"⟩).corsAllowOrigins =
        ["http://localhost:8080"] ∧
      "https://fortunasbet.com" ∉
        (mkApiStack ⟨"api.x", "Testing", "e", "n"⟩).corsAllowOrigins :=
  ⟨c10_cors_origins.1 _ (by decide), c10_cors_origins.2.1 _ (by decide),
    c10_cors_origins.2.2.1 _ (by decide) (by decide),
    c10_cors_origins.2.2.2 _ (by decide)⟩
